import Mathlib

/-!
Shallow embedding of the RecipeHub backend (src/server.js together with the
schema in src/models/Recipe.js) and verification of the frozen claims about
its recipe store, identifier allocator, comment/rating aggregator and access
policy.

Modelling conventions:
* Request-body values are modelled at the JavaScript-value level: a field that
  is absent is `none`; JavaScript truthiness of a present string is `s ≠ ""`
  and of a present number is `n ≠ 0`.
* The `ingredients` body field is a string fed to `JSON.parse`; we model the
  outcome of that parse (`arr`, a JSON value that is not an array, or a parse
  failure that throws) rather than the raw text.
* Numbers are exact: JavaScript numbers holding integers are `Int`, and the
  stored `rating` (an average rounded to one decimal by `toFixed(1)`) is `ℚ`.
  `toFixed(1)` picks the integer n closest to 10·x, ties toward the larger n,
  which for the non-negative values arising here is `⌊10x + 1/2⌋`.
* The awaited external media call `cloudinary.uploader.destroy` is modelled by
  a Boolean `mediaOk` handler argument: `false` means the awaited promise
  rejects (which the source catches, answering 500).
* Each Express handler becomes a function from its inputs and a database state
  to a result plus the successor state; the atomic `findOneAndUpdate` counter
  increment of `getNextRecipeId` becomes an increment of a counter field.
-/

namespace RecipeHub

/-- Ingredient subdocument: `{name, quantity}` (src/models/Recipe.js). -/
structure Ingredient where
  name : String
  quantity : String
deriving DecidableEq, Repr

/-- Comment subdocument: `{comment, rating}` (src/models/Recipe.js; the extra
`user` key pushed by the handler is not part of the schema and is dropped). -/
structure Comment where
  comment : String
  rating : Int
deriving DecidableEq, Repr

/-- Recipe document, following the fields of src/models/Recipe.js as the
handlers in src/server.js populate them. -/
structure Recipe where
  id : Int
  name : String
  cuisine : String
  cookingTime : Int
  ingredients : List Ingredient
  nutritionalInfo : String
  methodSteps : List String
  youtubeLink : String
  imageUrl : String
  comments : List Comment
  rating : ℚ
  createdBy : String
deriving DecidableEq, Repr

/-- Database state: the recipe collection plus the shared `recipeId` counter
record (`Counter.seq`, starting at 0 before the first upsert). -/
structure DBState where
  recipes : List Recipe
  counterSeq : Int
deriving DecidableEq, Repr

/-- Embeds `getNextRecipeId` (src/server.js lines 101-108): an atomic
`$inc seq by 1` with upsert, returning the incremented value. -/
def getNextRecipeId (st : DBState) : Int × DBState :=
  (st.counterSeq + 1, { st with counterSeq := st.counterSeq + 1 })

/-- Embeds `Recipe.findOne({id: rid})`. -/
def findRecipe (st : DBState) (rid : Int) : Option Recipe :=
  st.recipes.find? (fun r => r.id == rid)

/-- JavaScript `Number.prototype.toFixed(1)` on a non-negative exact value:
the integer closest to 10·x, ties to the larger, then divided back by 10. -/
def toFixed1 (x : ℚ) : ℚ :=
  ((⌊x * 10 + 1 / 2⌋ : ℤ) : ℚ) / 10

/-- Rating formula both comment handlers recompute: `0` on an empty comment
list, else `(sum of ratings / length).toFixed(1)`. -/
def computeRating (cs : List Comment) : ℚ :=
  if cs.length = 0 then 0
  else toFixed1 (((cs.map (fun c => c.rating)).sum : ℚ) / (cs.length : ℚ))

/-- Outcome of `JSON.parse` on the `ingredients` body string. -/
inductive ParseOutcome where
  /-- The string parsed to a JSON array of ingredients. -/
  | arr (l : List Ingredient) : ParseOutcome
  /-- The string parsed to a JSON value that is not an array. -/
  | nonArray : ParseOutcome
  /-- `JSON.parse` threw (malformed JSON). -/
  | parseError : ParseOutcome
deriving DecidableEq, Repr

/-- Request body for POST /recipes and PUT /recipes/:id. `none` is an absent
field; `file` is the uploaded image path when present. `cookingTime` holds the
JavaScript numeric value of the field, `methodSteps` the already-split list
(the source splits a comma-separated string or passes an array through). -/
structure RecipeReq where
  name : Option String
  cuisine : Option String
  cookingTime : Option Int
  ingredients : Option ParseOutcome
  nutritionalInfo : Option String
  methodSteps : Option (List String)
  youtubeLink : Option String
  file : Option String
deriving DecidableEq, Repr

/-- JavaScript truthiness of a possibly-absent string field. -/
def strTruthy : Option String → Bool
  | none => false
  | some s => s != ""

/-- JavaScript truthiness of a possibly-absent numeric field. -/
def intTruthy : Option Int → Bool
  | none => false
  | some n => n != 0

/-- HTTP outcome of a handler: 200 with a recipe, 200 with a message, 400,
403, 404, or 500. -/
inductive HOut where
  | okRecipe (r : Recipe) : HOut
  | okMsg (msg : String) : HOut
  | badRequest (msg : String) : HOut
  | forbidden (msg : String) : HOut
  | notFound (msg : String) : HOut
  | serverError (msg : String) : HOut
deriving DecidableEq, Repr

/-- Embeds POST /recipes (src/server.js lines 186-210). The required-fields
guard is `!name || !cuisine || !cookingTime || !ingredients`; then
`JSON.parse(ingredients)` runs (a throw is caught as a 500 before the counter
is touched); a parsed non-array is silently replaced by `[]`; the new record
gets the next counter id, `comments = []`, `rating = 0` and
`createdBy = owner`. -/
def createRecipe (req : RecipeReq) (owner : String) (st : DBState) :
    HOut × DBState :=
  if ¬ (strTruthy req.name = true ∧ strTruthy req.cuisine = true ∧
        intTruthy req.cookingTime = true ∧ req.ingredients.isSome = true) then
    (.badRequest "Required fields missing", st)
  else
    match req.ingredients with
    | none => (.badRequest "Required fields missing", st)
    | some .parseError => (.serverError "Server error during recipe creation", st)
    | some po =>
      let alloc := getNextRecipeId st
      let newRecipe : Recipe :=
        { id := alloc.1
          name := req.name.getD ""
          cuisine := req.cuisine.getD ""
          cookingTime := req.cookingTime.getD 0
          ingredients := match po with | .arr l => l | _ => []
          nutritionalInfo := req.nutritionalInfo.getD ""
          methodSteps := req.methodSteps.getD []
          youtubeLink := req.youtubeLink.getD ""
          imageUrl := req.file.getD ""
          comments := []
          rating := 0
          createdBy := owner }
      (.okRecipe newRecipe,
        { alloc.2 with recipes := alloc.2.recipes ++ [newRecipe] })

/-- Field merge of the update handler: a present truthy string replaces the
old value, an absent or falsy one leaves it. -/
def updStr (fld : Option String) (old : String) : String :=
  match fld with
  | some s => if s = "" then old else s
  | none => old

/-- Field merge for a numeric field: present and nonzero replaces, absent or
`0` (falsy) leaves the old value. -/
def updInt (fld : Option Int) (old : Int) : Int :=
  match fld with
  | some n => if n = 0 then old else n
  | none => old

/-- The `updateData` merge of PUT /recipes/:id applied to the stored record:
only present truthy fields are written; `id`, `comments`, `rating` and
`createdBy` are never part of `updateData`. -/
def applyUpdate (req : RecipeReq) (rec : Recipe) : Recipe :=
  { rec with
    name := updStr req.name rec.name
    cuisine := updStr req.cuisine rec.cuisine
    cookingTime := updInt req.cookingTime rec.cookingTime
    ingredients := match req.ingredients with
      | some (.arr l) => l
      | _ => rec.ingredients
    nutritionalInfo := updStr req.nutritionalInfo rec.nutritionalInfo
    methodSteps := match req.methodSteps with
      | some l => l
      | none => rec.methodSteps
    youtubeLink := updStr req.youtubeLink rec.youtubeLink
    imageUrl := match req.file with
      | some p => p
      | none => rec.imageUrl }

/-- Embeds PUT /recipes/:id (src/server.js lines 214-265): 404 when the id is
absent, 403 unless the requester is the creator, 400 when a present
`ingredients` parses to a non-array (a parse throw is a 500), 500 when a new
image is supplied and destroying the old one fails, otherwise
`findOneAndUpdate` with the merged fields. -/
def updateRecipe (req : RecipeReq) (rid : Int) (requester : String)
    (mediaOk : Bool) (st : DBState) : HOut × DBState :=
  match findRecipe st rid with
  | none => (.notFound "Recipe not found", st)
  | some recipe =>
    if requester ≠ recipe.createdBy then
      (.forbidden "You are not authorized to edit this recipe", st)
    else
      match req.ingredients with
      | some .parseError => (.serverError "Server error during recipe update", st)
      | some .nonArray => (.badRequest "Ingredients must be an array", st)
      | _ =>
        if req.file.isSome ∧ recipe.imageUrl ≠ "" ∧ mediaOk = false then
          (.serverError "Server error during recipe update", st)
        else
          let updated := applyUpdate req recipe
          (.okRecipe updated,
            { st with recipes :=
                st.recipes.map (fun r => if r.id == rid then updated else r) })

/-- Embeds DELETE /recipes/:id (src/server.js lines 268-291): 404 when
absent, 403 unless the requester is the admin `maryam865` or the creator;
then the Cloudinary destroy of any stored image is awaited — a rejection is
caught as a 500 before `deleteOne` runs — and only afterwards is the record
deleted and success reported. -/
def deleteRecipe (rid : Int) (requester : String) (mediaOk : Bool)
    (st : DBState) : HOut × DBState :=
  match findRecipe st rid with
  | none => (.notFound "Recipe not found", st)
  | some recipe =>
    if requester ≠ "maryam865" ∧ requester ≠ recipe.createdBy then
      (.forbidden "You are not authorized to delete this recipe", st)
    else if recipe.imageUrl ≠ "" ∧ mediaOk = false then
      (.serverError "Server error during recipe deletion", st)
    else
      (.okMsg "Recipe deleted successfully",
        { st with recipes := st.recipes.eraseP (fun r => r.id == rid) })

/-- Push-and-recompute step of POST /recipes/:id/comment: append the comment,
sum the ratings with `reduce`, store `(total / length).toFixed(1)`. -/
def addCommentToRecipe (text : String) (ratingVal : Int) (rec : Recipe) :
    Recipe :=
  let comments2 := rec.comments ++ [⟨text, ratingVal⟩]
  let totalRating : Int := (comments2.map (fun c => c.rating)).sum
  { rec with comments := comments2
             rating := toFixed1 ((totalRating : ℚ) / (comments2.length : ℚ)) }

/-- Splice-and-recompute step of DELETE /recipes/:id/comments/:idx: remove the
comment at the index, then recompute the average when comments remain, else
store `0`. -/
def deleteCommentFromRecipe (i : Nat) (rec : Recipe) : Recipe :=
  let comments2 := rec.comments.eraseIdx i
  if comments2.length > 0 then
    let totalRating : Int := (comments2.map (fun c => c.rating)).sum
    { rec with comments := comments2
               rating := toFixed1 ((totalRating : ℚ) / (comments2.length : ℚ)) }
  else
    { rec with comments := comments2, rating := 0 }

/-- Embeds POST /recipes/:id/comment (src/server.js lines 294-313): the guard
`!comment || !rating || rating < 1 || rating > 5` answers 400, then a missing
recipe answers 404, otherwise the comment is appended and the rating
recomputed. -/
def addCommentHandler (rid : Int) (text : Option String)
    (ratingVal : Option Int) (st : DBState) : HOut × DBState :=
  match text, ratingVal with
  | some t, some r =>
    if t = "" ∨ r = 0 ∨ r < 1 ∨ r > 5 then
      (.badRequest "Comment and rating (1-5) are required", st)
    else
      match findRecipe st rid with
      | none => (.notFound "Recipe not found", st)
      | some recipe =>
        let updated := addCommentToRecipe t r recipe
        (.okRecipe updated,
          { st with recipes :=
              st.recipes.map (fun r2 => if r2.id == rid then updated else r2) })
  | _, _ => (.badRequest "Comment and rating (1-5) are required", st)

/-- Embeds DELETE /recipes/:id/comments/:commentIndex (src/server.js lines
316-346): the admin check runs first (403 for everyone except `maryam865`,
even when the recipe does not exist), then 404 on a missing recipe, then 400
when `parseInt` of the index gave NaN (`none` here) or the index is outside
`[0, length)`, otherwise the splice-and-recompute step. -/
def deleteCommentHandler (rid : Int) (idx : Option Int) (requester : String)
    (st : DBState) : HOut × DBState :=
  if requester ≠ "maryam865" then
    (.forbidden "Only admin can delete comments", st)
  else
    match findRecipe st rid with
    | none => (.notFound "Recipe not found", st)
    | some recipe =>
      match idx with
      | none => (.badRequest "Invalid comment index", st)
      | some i =>
        if i < 0 ∨ (recipe.comments.length : Int) ≤ i then
          (.badRequest "Invalid comment index", st)
        else
          let updated := deleteCommentFromRecipe i.toNat recipe
          (.okRecipe updated,
            { st with recipes :=
                st.recipes.map (fun r2 => if r2.id == rid then updated else r2) })

/-- Recognizer for a 400 answer. -/
def isBadRequest : HOut → Bool
  | .badRequest _ => true
  | _ => false

/-- Access-policy predicate of the source: the fixed administrator set is the
single hardcoded username checked by both delete handlers. -/
def isPrivileged (u : String) : Bool := u == "maryam865"

/-- Comment-mutation requests against the two comment endpoints. -/
inductive CommentOp where
  | addC (rid : Int) (text : Option String) (ratingVal : Option Int) : CommentOp
  | delC (rid : Int) (idx : Option Int) (requester : String) : CommentOp
deriving DecidableEq, Repr

/-- State effect of one comment-endpoint request. -/
def applyCommentOp (st : DBState) (op : CommentOp) : DBState :=
  match op with
  | .addC rid t r => (addCommentHandler rid t r st).2
  | .delC rid i u => (deleteCommentHandler rid i u st).2

/-- State effect of a sequence of comment-endpoint requests. -/
def applyCommentOps (st : DBState) (ops : List CommentOp) : DBState :=
  ops.foldl applyCommentOp st

/-- Rating invariant: every stored recipe's `rating` field equals the
recomputation formula applied to its current comment list. -/
def RatingInv (st : DBState) : Prop :=
  ∀ r ∈ st.recipes, r.rating = computeRating r.comments

/-- Values returned by n successive calls of the identifier allocator. -/
def allocTrace : Nat → DBState → List Int
  | 0, _ => []
  | Nat.succ n, st =>
    let alloc := getNextRecipeId st
    alloc.1 :: allocTrace n alloc.2

/-- The ids of all stored recipes. -/
def idsOf (st : DBState) : List Int := st.recipes.map (fun r => r.id)

/-- Identifier invariant: every stored id is at most the counter value, and
the stored ids are pairwise distinct. -/
def IdInv (st : DBState) : Prop :=
  (∀ i ∈ idsOf st, i ≤ st.counterSeq) ∧ (idsOf st).Nodup

/-- Requests against any of the five mutating recipe endpoints. -/
inductive ApiOp where
  | createOp (req : RecipeReq) (owner : String) : ApiOp
  | updateOp (req : RecipeReq) (rid : Int) (requester : String) (mediaOk : Bool) : ApiOp
  | deleteOp (rid : Int) (requester : String) (mediaOk : Bool) : ApiOp
  | addCommentOp (rid : Int) (text : Option String) (ratingVal : Option Int) : ApiOp
  | delCommentOp (rid : Int) (idx : Option Int) (requester : String) : ApiOp
deriving DecidableEq, Repr

/-- State effect of one mutating request. -/
def applyApiOp (st : DBState) (op : ApiOp) : DBState :=
  match op with
  | .createOp req owner => (createRecipe req owner st).2
  | .updateOp req rid u mOk => (updateRecipe req rid u mOk st).2
  | .deleteOp rid u mOk => (deleteRecipe rid u mOk st).2
  | .addCommentOp rid t r => (addCommentHandler rid t r st).2
  | .delCommentOp rid i u => (deleteCommentHandler rid i u st).2

/-- State effect of a sequence of mutating requests. -/
def applyApiOps (st : DBState) (ops : List ApiOp) : DBState :=
  ops.foldl applyApiOp st

/-! Concrete inputs used by witnesses and counterexamples. -/

/-- Empty database, counter before its first upsert. -/
def emptyDB : DBState := { recipes := [], counterSeq := 0 }

/-- A stored recipe owned by alice, no image, no comments. -/
def demoRecipe : Recipe :=
  { id := 1, name := "Pasta", cuisine := "Italian", cookingTime := 30
    ingredients := [⟨"flour", "200g"⟩], nutritionalInfo := ""
    methodSteps := ["mix", "cook"], youtubeLink := "", imageUrl := ""
    comments := [], rating := 0, createdBy := "alice" }

/-- The same recipe with a stored image reference. -/
def demoRecipeImg : Recipe :=
  { demoRecipe with imageUrl := "https://img.host/recipehub/x.png" }

/-- Database holding `demoRecipe` under id 1. -/
def demoDB : DBState := { recipes := [demoRecipe], counterSeq := 1 }

/-- Database holding `demoRecipeImg` under id 1. -/
def demoDBImg : DBState := { recipes := [demoRecipeImg], counterSeq := 1 }

/-- A complete, valid creation request. -/
def demoReqFull : RecipeReq :=
  { name := some "Pasta", cuisine := some "Italian", cookingTime := some 30
    ingredients := some (.arr [⟨"flour", "200g"⟩]), nutritionalInfo := none
    methodSteps := some ["mix", "cook"], youtubeLink := none, file := none }

/-- The same request with `ingredients` parsing to a non-array JSON value. -/
def demoReqNonArray : RecipeReq := { demoReqFull with ingredients := some .nonArray }

/-- Record produced by `createRecipe demoReqNonArray "alice" emptyDB`. -/
def demoCreatedNonArray : Recipe :=
  { id := 1, name := "Pasta", cuisine := "Italian", cookingTime := 30
    ingredients := [], nutritionalInfo := "", methodSteps := ["mix", "cook"]
    youtubeLink := "", imageUrl := "", comments := [], rating := 0
    createdBy := "alice" }

/-- Partial update carrying only the falsy value `cookingTime = 0`. -/
def demoReqTimeZero : RecipeReq :=
  { name := none, cuisine := none, cookingTime := some 0, ingredients := none
    nutritionalInfo := none, methodSteps := none, youtubeLink := none
    file := none }

/-- The demo recipe holding two comments with ratings 4 and 2 and the
matching stored average 3.0. -/
def demoRecipe2 : Recipe :=
  { demoRecipe with comments := [⟨"tasty", 4⟩, ⟨"meh", 2⟩], rating := 3 }

/-- Database holding `demoRecipe2` under id 1. -/
def demoDB2 : DBState := { recipes := [demoRecipe2], counterSeq := 1 }

/-- The spec scenario: add ratings 4 and 2, then delete the first comment. -/
def demoCommentOps : List CommentOp :=
  [.addC 1 (some "tasty") (some 4), .addC 1 (some "meh") (some 2),
   .delC 1 (some 0) "maryam865"]

/-- A mixed request sequence: two creations around a deletion. -/
def demoApiOps : List ApiOp :=
  [.createOp demoReqFull "alice", .deleteOp 1 "maryam865" true,
   .createOp demoReqFull "bob"]

/-! Shared helper lemmas. -/

/-- The record returned by `findRecipe` carries the looked-up id. -/
theorem findRecipe_id {st : DBState} {rid : Int} {recipe : Recipe}
    (h : findRecipe st rid = some recipe) : recipe.id = rid := by
  have hp := List.find?_some h
  simpa using hp

/-- The record returned by `findRecipe` is one of the stored records. -/
theorem findRecipe_mem {st : DBState} {rid : Int} {recipe : Recipe}
    (h : findRecipe st rid = some recipe) : recipe ∈ st.recipes :=
  List.mem_of_find?_eq_some h

/-- A falsy string field leaves the old value. -/
theorem updStr_falsy {fld : Option String} {old : String}
    (h : strTruthy fld = false) : updStr fld old = old := by
  cases fld with
  | none => rfl
  | some s =>
    simp only [strTruthy, bne_eq_false_iff_eq] at h
    simp [updStr, h]

/-- A truthy string field replaces the old value. -/
theorem updStr_truthy {s : String} {old : String} (h : s ≠ "") :
    updStr (some s) old = s := by
  simp [updStr, h]

/-- A falsy numeric field leaves the old value. -/
theorem updInt_falsy {fld : Option Int} {old : Int}
    (h : intTruthy fld = false) : updInt fld old = old := by
  cases fld with
  | none => rfl
  | some n =>
    simp only [intTruthy, bne_eq_false_iff_eq] at h
    simp [updInt, h]

/-- A truthy numeric field replaces the old value. -/
theorem updInt_truthy {n : Int} {old : Int} (h : n ≠ 0) :
    updInt (some n) old = n := by
  simp [updInt, h]

/-! Claim theorems. -/

/-- Claim C8: for every stored recipe, an update requested by an identity
other than the recipe's `createdBy` fails with Forbidden (403) and the whole
database state — in particular the stored record — is unchanged. -/
theorem update_nonowner_forbidden_unchanged (req : RecipeReq) (rid : Int)
    (u : String) (mediaOk : Bool) (st : DBState) (recipe : Recipe)
    (hfind : findRecipe st rid = some recipe)
    (hne : u ≠ recipe.createdBy) :
    updateRecipe req rid u mediaOk st =
      (.forbidden "You are not authorized to edit this recipe", st) := by
  unfold updateRecipe
  rw [hfind]
  simp [hne]

/-- Claim C8 witness: bob cannot update the recipe alice created. -/
theorem update_nonowner_forbidden_unchanged_witness :
    updateRecipe demoReqTimeZero 1 "bob" true demoDB =
      (.forbidden "You are not authorized to edit this recipe", demoDB) :=
  update_nonowner_forbidden_unchanged demoReqTimeZero 1 "bob" true demoDB
    demoRecipe (by decide) (by decide)

/-- Claim C10: in the comment-delete handler the privilege check runs before
the recipe lookup: a non-admin requester gets Forbidden with the state
unchanged whatever the state holds, NotFound can only ever reach the admin,
and for the admin a missing recipe answers NotFound. -/
theorem deleteComment_privilege_before_existence (st : DBState) (rid : Int)
    (idx : Option Int) (u : String) :
    (u ≠ "maryam865" →
      deleteCommentHandler rid idx u st =
        (.forbidden "Only admin can delete comments", st))
    ∧ ((deleteCommentHandler rid idx u st).1 = .notFound "Recipe not found" →
        u = "maryam865")
    ∧ (findRecipe st rid = none → u = "maryam865" →
        deleteCommentHandler rid idx u st = (.notFound "Recipe not found", st)) := by
  refine ⟨fun h => ?_, fun h => ?_, fun hnone hu => ?_⟩
  · simp [deleteCommentHandler, h]
  · by_contra hne
    simp [deleteCommentHandler, hne] at h
  · simp [deleteCommentHandler, hu, hnone]

/-- Claim C10 witness: bob is refused even on an empty database, where the
admin gets NotFound. -/
theorem deleteComment_privilege_before_existence_witness :
    deleteCommentHandler 1 (some 0) "bob" emptyDB =
      (.forbidden "Only admin can delete comments", emptyDB)
    ∧ deleteCommentHandler 1 (some 0) "maryam865" emptyDB =
      (.notFound "Recipe not found", emptyDB) :=
  ⟨(deleteComment_privilege_before_existence emptyDB 1 (some 0) "bob").1
      (by decide),
   (deleteComment_privilege_before_existence emptyDB 1 (some 0) "maryam865").2.2
      (by decide) rfl⟩

/-- Both branches of the splice-and-recompute step remove the indexed
comment. -/
theorem deleteCommentFromRecipe_comments (i : Nat) (rec : Recipe) :
    (deleteCommentFromRecipe i rec).comments = rec.comments.eraseIdx i := by
  simp only [deleteCommentFromRecipe]
  split <;> rfl

/-- Claim C9: a recipe may be deleted exactly when the requester is its
creator or a privileged identity, and a comment may be deleted exactly by a
privileged identity; every other requester is answered Forbidden. -/
theorem access_policy_delete (st : DBState) (rid : Int) (u : String)
    (mediaOk : Bool) (idx : Option Int) :
    (∀ recipe, findRecipe st rid = some recipe →
      ((deleteRecipe rid u mediaOk st).1 =
          .forbidden "You are not authorized to delete this recipe" ↔
        ¬ (u = recipe.createdBy ∨ isPrivileged u = true)))
    ∧ ((deleteCommentHandler rid idx u st).1 =
          .forbidden "Only admin can delete comments" ↔
        isPrivileged u = false) := by
  constructor
  · intro recipe hfind
    by_cases hg : u ≠ "maryam865" ∧ u ≠ recipe.createdBy
    · simp only [deleteRecipe, hfind]
      rw [if_pos hg]
      simp [isPrivileged, hg.1, hg.2]
    · have hor : u = recipe.createdBy ∨ isPrivileged u = true := by
        rw [not_and_or, not_not, not_not] at hg
        rcases hg with h1 | h2
        · right; simp [isPrivileged, h1]
        · left; exact h2
      constructor
      · intro h
        simp only [deleteRecipe, hfind] at h
        rw [if_neg hg] at h
        split at h <;> simp_all
      · intro h
        exact absurd hor h
  · by_cases hu : u = "maryam865"
    · subst hu
      constructor
      · intro h
        exfalso
        simp only [deleteCommentHandler, ne_eq, not_true_eq_false,
          if_false] at h
        cases hf : findRecipe st rid with
        | none => simp only [hf] at h; simp at h
        | some rec2 =>
          simp only [hf] at h
          cases idx with
          | none => simp at h
          | some i =>
            by_cases hc : i < 0 ∨ (rec2.comments.length : Int) ≤ i
            · simp [hc] at h
            · simp [hc] at h
      · intro h
        simp [isPrivileged] at h
    · simp [deleteCommentHandler, hu, isPrivileged]

/-- Claim C9 witness: bob may delete neither the recipe nor a comment, while
the creator alice may delete the recipe and the admin is not refused on the
comment route. -/
theorem access_policy_delete_witness :
    (deleteRecipe 1 "bob" true demoDB).1 =
      .forbidden "You are not authorized to delete this recipe"
    ∧ (deleteRecipe 1 "alice" true demoDB).1 ≠
      .forbidden "You are not authorized to delete this recipe"
    ∧ (deleteCommentHandler 1 (some 0) "bob" demoDB).1 =
      .forbidden "Only admin can delete comments"
    ∧ (deleteCommentHandler 1 (some 0) "maryam865" demoDB).1 ≠
      .forbidden "Only admin can delete comments" := by
  refine ⟨?_, ?_, ?_, ?_⟩
  · exact ((access_policy_delete demoDB 1 "bob" true (some 0)).1 demoRecipe
      (by decide)).mpr (by decide)
  · intro h
    have := ((access_policy_delete demoDB 1 "alice" true (some 0)).1 demoRecipe
      (by decide)).mp h
    exact this (Or.inl (by decide))
  · exact ((access_policy_delete demoDB 1 "bob" true (some 0)).2).mpr (by decide)
  · intro h
    have := ((access_policy_delete demoDB 1 "maryam865" true (some 0)).2).mp h
    simp [isPrivileged] at this

/-- Claim C6: the comment endpoint rejects an empty text or a rating outside
`[1, 5]` with a 400, and otherwise appends exactly `{comment, rating}` at the
end of the existing comment list. -/
theorem addComment_rating_bounds (st : DBState) (rid : Int) (t : String)
    (r : Int) :
    ((t = "" ∨ r < 1 ∨ 5 < r) →
      addCommentHandler rid (some t) (some r) st =
        (.badRequest "Comment and rating (1-5) are required", st))
    ∧ (t ≠ "" → 1 ≤ r → r ≤ 5 →
        ∀ recipe, findRecipe st rid = some recipe →
          addCommentHandler rid (some t) (some r) st =
            (.okRecipe (addCommentToRecipe t r recipe),
              { st with
                recipes := (st.recipes.map (fun r2 =>
                  if r2.id == rid then addCommentToRecipe t r recipe else r2)) })
          ∧ (addCommentToRecipe t r recipe).comments
              = recipe.comments ++ [⟨t, r⟩]) := by
  constructor
  · intro h
    have hg : t = "" ∨ r = 0 ∨ r < 1 ∨ r > 5 := by
      rcases h with h | h | h
      · exact Or.inl h
      · exact Or.inr (Or.inr (Or.inl h))
      · exact Or.inr (Or.inr (Or.inr h))
    simp [addCommentHandler, hg]
  · intro ht h1 h5 recipe hfind
    have hg : ¬ (t = "" ∨ r = 0 ∨ r < 1 ∨ r > 5) := by
      intro hcon
      rcases hcon with h | h | h | h
      · exact ht h
      · omega
      · omega
      · omega
    refine ⟨?_, by simp [addCommentToRecipe]⟩
    simp [addCommentHandler, hg, hfind]

/-- Claim C6 witness: ratings 0 and 6 are refused, ratings 1 and 5 append. -/
theorem addComment_rating_bounds_witness :
    addCommentHandler 1 (some "good") (some 0) demoDB =
      (.badRequest "Comment and rating (1-5) are required", demoDB)
    ∧ addCommentHandler 1 (some "good") (some 6) demoDB =
      (.badRequest "Comment and rating (1-5) are required", demoDB)
    ∧ (addCommentHandler 1 (some "good") (some 1) demoDB).1 =
      .okRecipe (addCommentToRecipe "good" 1 demoRecipe)
    ∧ (addCommentHandler 1 (some "nice") (some 5) demoDB).1 =
      .okRecipe (addCommentToRecipe "nice" 5 demoRecipe) := by
  refine ⟨(addComment_rating_bounds demoDB 1 "good" 0).1 (by decide),
    (addComment_rating_bounds demoDB 1 "good" 6).1 (by decide), ?_, ?_⟩
  · rw [((addComment_rating_bounds demoDB 1 "good" 1).2 (by decide) (by decide)
      (by decide) demoRecipe (by decide)).1]
  · rw [((addComment_rating_bounds demoDB 1 "nice" 5).2 (by decide) (by decide)
      (by decide) demoRecipe (by decide)).1]

/-- Claim C7: deleting a comment at an index outside `[0, length)` answers
400, and an in-range deletion removes exactly the indexed comment, keeping
the earlier prefix and shifting the later comments down by one. -/
theorem deleteComment_index_validation_shift (st : DBState) (rid : Int)
    (recipe : Recipe) (hfind : findRecipe st rid = some recipe) :
    (∀ i : Int, (i < 0 ∨ (recipe.comments.length : Int) ≤ i) →
      deleteCommentHandler rid (some i) "maryam865" st =
        (.badRequest "Invalid comment index", st))
    ∧ (∀ i : Nat, i < recipe.comments.length →
        (deleteCommentHandler rid (some (i : Int)) "maryam865" st).1 =
          .okRecipe (deleteCommentFromRecipe i recipe)
        ∧ (deleteCommentFromRecipe i recipe).comments =
            recipe.comments.take i ++ recipe.comments.drop (i + 1)
        ∧ (deleteCommentFromRecipe i recipe).comments.length =
            recipe.comments.length - 1) := by
  constructor
  · intro i hi
    simp [deleteCommentHandler, hfind, hi]
  · intro i hilt
    have hcond : ¬ ((i : Int) < 0 ∨ (recipe.comments.length : Int) ≤ (i : Int)) := by
      push_neg
      constructor
      · exact Int.natCast_nonneg i
      · exact_mod_cast hilt
    have htn : (i : Int).toNat = i := Int.toNat_natCast i
    have h1 : ¬ ((i : Int) < 0) := by omega
    have h2 : ¬ (recipe.comments.length ≤ i) := by omega
    refine ⟨?_, ?_, ?_⟩
    · simp [deleteCommentHandler, hfind, hcond, htn, h1, h2]
    · rw [deleteCommentFromRecipe_comments, List.eraseIdx_eq_take_drop_succ]
    · rw [deleteCommentFromRecipe_comments, List.length_eraseIdx, if_pos hilt]

/-- Claim C7 witness: on a two-comment recipe, index 2 is refused and index 0
removes the first comment leaving the second. -/
theorem deleteComment_index_validation_shift_witness :
    deleteCommentHandler 1 (some 2) "maryam865" demoDB2 =
      (.badRequest "Invalid comment index", demoDB2)
    ∧ (deleteCommentHandler 1 (some 0) "maryam865" demoDB2).1 =
      .okRecipe (deleteCommentFromRecipe 0 demoRecipe2)
    ∧ (deleteCommentFromRecipe 0 demoRecipe2).comments = [⟨"meh", 2⟩] := by
  have h := deleteComment_index_validation_shift demoDB2 1 demoRecipe2 (by decide)
  refine ⟨h.1 2 (by decide), (h.2 0 (by decide)).1, ?_⟩
  rw [(h.2 0 (by decide)).2.1]
  decide

/-- Claim C5 counterexample: with a stored image and a failing media-host
release call, the delete handler answers 500 and the record survives — the
release is awaited before `deleteOne`, so its failure does prevent the
database deletion from being reported as successful. -/
theorem delete_media_failure_blocks_deletion :
    (deleteRecipe 1 "alice" false demoDBImg).1 =
      .serverError "Server error during recipe deletion"
    ∧ (deleteRecipe 1 "alice" false demoDBImg).2 = demoDBImg
    ∧ findRecipe ((deleteRecipe 1 "alice" false demoDBImg).2) 1 =
      some demoRecipeImg := by
  refine ⟨by decide, by decide, by decide⟩

/-- Claim C5 (amended): the delete handler awaits the media release before
the database deletion: when the stored record carries an image and the
release fails, the handler answers 500 and the state — the record included —
is unchanged; only when the release succeeds is the record removed and
success reported. -/
theorem delete_media_release_ordering (rid : Int) (u : String) (st : DBState)
    (recipe : Recipe) (hfind : findRecipe st rid = some recipe)
    (hauth : u = "maryam865" ∨ u = recipe.createdBy)
    (himg : recipe.imageUrl ≠ "") :
    deleteRecipe rid u false st =
      (.serverError "Server error during recipe deletion", st)
    ∧ deleteRecipe rid u true st =
      (.okMsg "Recipe deleted successfully",
        { st with recipes := (st.recipes.eraseP (fun r => r.id == rid)) }) := by
  have hg : ¬ (u ≠ "maryam865" ∧ u ≠ recipe.createdBy) := by
    rcases hauth with h | h <;> simp [h]
  constructor
  · simp only [deleteRecipe, hfind]
    rw [if_neg hg, if_pos ⟨himg, by trivial⟩]
  · simp only [deleteRecipe, hfind]
    rw [if_neg hg, if_neg (by simp)]

/-- Claim C5 (amended) witness: a failing release blocks the deletion of the
image-bearing demo recipe, a succeeding one lets it through. -/
theorem delete_media_release_ordering_witness :
    deleteRecipe 1 "alice" false demoDBImg =
      (.serverError "Server error during recipe deletion", demoDBImg)
    ∧ deleteRecipe 1 "alice" true demoDBImg =
      (.okMsg "Recipe deleted successfully",
        { demoDBImg with
          recipes := (demoDBImg.recipes.eraseP (fun r => r.id == 1)) }) :=
  delete_media_release_ordering 1 "alice" demoDBImg demoRecipeImg (by decide)
    (Or.inr (by decide)) (by decide)

/-- Claim C4: a successful owner update writes only the present truthy
fields; absent or falsy fields — in particular a supplied `cookingTime = 0`
— keep their stored values, and `id`, `comments`, `rating` and `createdBy`
are never touched. -/
theorem update_frame_falsy_untouched (req : RecipeReq) (rid : Int)
    (u : String) (mediaOk : Bool) (st : DBState) (recipe : Recipe)
    (hfind : findRecipe st rid = some recipe)
    (howner : u = recipe.createdBy) :
    ∀ r2, (updateRecipe req rid u mediaOk st).1 = .okRecipe r2 →
      (strTruthy req.name = false → r2.name = recipe.name)
      ∧ (∀ s, req.name = some s → s ≠ "" → r2.name = s)
      ∧ (strTruthy req.cuisine = false → r2.cuisine = recipe.cuisine)
      ∧ (∀ s, req.cuisine = some s → s ≠ "" → r2.cuisine = s)
      ∧ (intTruthy req.cookingTime = false →
          r2.cookingTime = recipe.cookingTime)
      ∧ (∀ n, req.cookingTime = some n → n ≠ 0 → r2.cookingTime = n)
      ∧ (req.cookingTime = some 0 → r2.cookingTime = recipe.cookingTime)
      ∧ (req.ingredients = none → r2.ingredients = recipe.ingredients)
      ∧ (∀ l, req.ingredients = some (.arr l) → r2.ingredients = l)
      ∧ (strTruthy req.nutritionalInfo = false →
          r2.nutritionalInfo = recipe.nutritionalInfo)
      ∧ (req.methodSteps = none → r2.methodSteps = recipe.methodSteps)
      ∧ (strTruthy req.youtubeLink = false →
          r2.youtubeLink = recipe.youtubeLink)
      ∧ (req.file = none → r2.imageUrl = recipe.imageUrl)
      ∧ r2.id = recipe.id ∧ r2.comments = recipe.comments
      ∧ r2.rating = recipe.rating ∧ r2.createdBy = recipe.createdBy := by
  intro r2 hok
  have hr2 : r2 = applyUpdate req recipe := by
    simp only [updateRecipe, hfind] at hok
    rw [if_neg (by simp [howner])] at hok
    split at hok
    · simp at hok
    · simp at hok
    · split at hok
      · simp at hok
      · simp at hok
        exact hok.symm
  subst hr2
  simp only [applyUpdate]
  refine ⟨?_, ?_, ?_, ?_, ?_, ?_, ?_, ?_, ?_, ?_, ?_, ?_, ?_, by trivial,
    by trivial, by trivial, by trivial⟩
  · intro h; exact updStr_falsy h
  · intro s hs hne; rw [hs]; exact updStr_truthy hne
  · intro h; exact updStr_falsy h
  · intro s hs hne; rw [hs]; exact updStr_truthy hne
  · intro h; exact updInt_falsy h
  · intro n hn hne; rw [hn]; exact updInt_truthy hne
  · intro h; rw [h]; simp [updInt]
  · intro h; rw [h]
  · intro l hl; rw [hl]
  · intro h; exact updStr_falsy h
  · intro h; rw [h]
  · intro h; exact updStr_falsy h
  · intro h; rw [h]

/-- Claim C4 witness: alice updates her recipe supplying only
`cookingTime = 0` and the stored cooking time stays 30. -/
theorem update_frame_falsy_untouched_witness :
    (updateRecipe demoReqTimeZero 1 "alice" true demoDB).1 =
      .okRecipe (applyUpdate demoReqTimeZero demoRecipe)
    ∧ (applyUpdate demoReqTimeZero demoRecipe).cookingTime =
      demoRecipe.cookingTime :=
  ⟨by decide,
   ((update_frame_falsy_untouched demoReqTimeZero 1 "alice" true demoDB
      demoRecipe (by decide) (by decide))
      (applyUpdate demoReqTimeZero demoRecipe)
      (by decide)).2.2.2.2.2.2.1 rfl⟩

/-- Claim C3 counterexample: with every required field present but
`ingredients` parsing to a non-array JSON value, creation succeeds with
`ingredients = []` instead of failing with a 400 ValidationError. -/
theorem create_nonarray_not_rejected :
    (createRecipe demoReqNonArray "alice" emptyDB).1 =
      .okRecipe demoCreatedNonArray
    ∧ isBadRequest (createRecipe demoReqNonArray "alice" emptyDB).1 = false
    ∧ demoCreatedNonArray.ingredients = [] := by
  refine ⟨by decide, by decide, rfl⟩

/-- Claim C3 (amended): creation answers 400 whenever a required field is
missing or falsy; with the required fields truthy, an `ingredients` value
parsing to a non-array silently yields a record with `ingredients = []` and
a failed parse yields a 500, not a 400; every successful creation stores
`comments = []`, `rating = 0` and `createdBy = owner`. -/
theorem create_validation_success (req : RecipeReq) (owner : String)
    (st : DBState) :
    ((strTruthy req.name = false ∨ strTruthy req.cuisine = false ∨
      intTruthy req.cookingTime = false ∨ req.ingredients = none) →
      createRecipe req owner st = (.badRequest "Required fields missing", st))
    ∧ (∀ r2, (createRecipe req owner st).1 = .okRecipe r2 →
        r2.comments = [] ∧ r2.rating = 0 ∧ r2.createdBy = owner)
    ∧ (req.ingredients = some .parseError →
        strTruthy req.name = true → strTruthy req.cuisine = true →
        intTruthy req.cookingTime = true →
        createRecipe req owner st =
          (.serverError "Server error during recipe creation", st))
    ∧ (req.ingredients = some .nonArray →
        strTruthy req.name = true → strTruthy req.cuisine = true →
        intTruthy req.cookingTime = true →
        ∀ r2, (createRecipe req owner st).1 = .okRecipe r2 →
          r2.ingredients = []) := by
  refine ⟨?_, ?_, ?_, ?_⟩
  · intro h
    rcases h with h | h | h | h <;> simp [createRecipe, h]
  · intro r2 hok
    simp only [createRecipe] at hok
    split at hok
    · simp at hok
    · split at hok
      · simp at hok
      · simp at hok
      · simp at hok
        subst hok
        exact ⟨rfl, rfl, rfl⟩
  · intro hi hn hc ht
    simp [createRecipe, hi, hn, hc, ht]
  · intro hi hn hc ht r2 hok
    simp [createRecipe, hi, hn, hc, ht] at hok
    subst hok
    rfl

/-- Claim C3 (amended) witness: a request without a name is refused, and the
successful non-array creation carries empty comments, zero rating and the
requesting owner. -/
theorem create_validation_success_witness :
    createRecipe { demoReqFull with name := none } "alice" emptyDB =
      (.badRequest "Required fields missing", emptyDB)
    ∧ (demoCreatedNonArray.comments = [] ∧ demoCreatedNonArray.rating = 0 ∧
        demoCreatedNonArray.createdBy = "alice") :=
  ⟨(create_validation_success { demoReqFull with name := none } "alice"
      emptyDB).1 (Or.inl (by decide)),
   (create_validation_success demoReqNonArray "alice" emptyDB).2.1
      demoCreatedNonArray (by decide)⟩

/-- Appending a comment re-establishes the rating formula. -/
theorem addCommentToRecipe_rating (t : String) (r : Int) (rec : Recipe) :
    (addCommentToRecipe t r rec).rating =
      computeRating (addCommentToRecipe t r rec).comments := by
  simp [addCommentToRecipe, computeRating, Function.comp_def]

/-- Splicing out a comment re-establishes the rating formula. -/
theorem deleteCommentFromRecipe_rating (i : Nat) (rec : Recipe) :
    (deleteCommentFromRecipe i rec).rating =
      computeRating (deleteCommentFromRecipe i rec).comments := by
  simp only [deleteCommentFromRecipe]
  split
  · next h =>
    have h0 : (rec.comments.eraseIdx i).length ≠ 0 := Nat.pos_iff_ne_zero.mp h
    simp [computeRating, h0, Function.comp_def]
  · next h =>
    have h0 : (rec.comments.eraseIdx i).length = 0 := by omega
    simp [computeRating, h0]

/-- Replacing the record under one id by a record satisfying the rating
formula preserves the rating invariant. -/
theorem ratingInv_map_replace {st : DBState} (h : RatingInv st) (rid : Int)
    (u2 : Recipe) (hu : u2.rating = computeRating u2.comments) :
    RatingInv { st with
      recipes := (st.recipes.map (fun r => if r.id == rid then u2 else r)) } := by
  intro x hx
  simp only [List.mem_map] at hx
  obtain ⟨a, ha, rfl⟩ := hx
  by_cases hid : (a.id == rid) = true
  · simp [hid, hu]
  · simp only [hid, if_false]
    exact h a ha

/-- One comment-endpoint request preserves the rating invariant. -/
theorem applyCommentOp_ratingInv {st : DBState} (h : RatingInv st)
    (op : CommentOp) : RatingInv (applyCommentOp st op) := by
  cases op with
  | addC rid t r =>
    cases t with
    | none => exact h
    | some tv =>
      cases r with
      | none => exact h
      | some rv =>
        by_cases hg : tv = "" ∨ rv = 0 ∨ rv < 1 ∨ rv > 5
        · have heq : applyCommentOp st (.addC rid (some tv) (some rv)) = st := by
            simp [applyCommentOp, addCommentHandler, hg]
          rw [heq]; exact h
        · cases hf : findRecipe st rid with
          | none =>
            have heq : applyCommentOp st (.addC rid (some tv) (some rv)) = st := by
              simp [applyCommentOp, addCommentHandler, hg, hf]
            rw [heq]; exact h
          | some recipe =>
            have heq : applyCommentOp st (.addC rid (some tv) (some rv)) =
                { st with recipes := (st.recipes.map (fun r2 =>
                    if r2.id == rid then addCommentToRecipe tv rv recipe
                    else r2)) } := by
              simp [applyCommentOp, addCommentHandler, hg, hf]
            rw [heq]
            exact ratingInv_map_replace h rid _
              (addCommentToRecipe_rating tv rv recipe)
  | delC rid idx u =>
    by_cases hu : u ≠ "maryam865"
    · have heq : applyCommentOp st (.delC rid idx u) = st := by
        simp [applyCommentOp, deleteCommentHandler, hu]
      rw [heq]; exact h
    · cases hf : findRecipe st rid with
      | none =>
        have heq : applyCommentOp st (.delC rid idx u) = st := by
          simp [applyCommentOp, deleteCommentHandler, hu, hf]
        rw [heq]; exact h
      | some recipe =>
        cases idx with
        | none =>
          have heq : applyCommentOp st (.delC rid none u) = st := by
            simp [applyCommentOp, deleteCommentHandler, hu, hf]
          rw [heq]; exact h
        | some i =>
          by_cases hc : i < 0 ∨ (recipe.comments.length : Int) ≤ i
          · have heq : applyCommentOp st (.delC rid (some i) u) = st := by
              simp [applyCommentOp, deleteCommentHandler, hu, hf, hc]
            rw [heq]; exact h
          · have heq : applyCommentOp st (.delC rid (some i) u) =
                { st with recipes := (st.recipes.map (fun r2 =>
                    if r2.id == rid then deleteCommentFromRecipe i.toNat recipe
                    else r2)) } := by
              simp [applyCommentOp, deleteCommentHandler, hu, hf, hc]
            rw [heq]
            exact ratingInv_map_replace h rid _
              (deleteCommentFromRecipe_rating i.toNat recipe)

/-- Claim C1: starting from any state in which every recipe's stored
`rating` equals the rounded mean of its comment ratings (0 when there are no
comments), any sequence of requests against the comment-add and comment-
delete endpoints keeps every stored `rating` equal to that formula — it
never drifts after any comment mutation. -/
theorem rating_never_drifts (ops : List CommentOp) :
    ∀ st : DBState, RatingInv st → RatingInv (applyCommentOps st ops) := by
  induction ops with
  | nil => exact fun _ h => h
  | cons op rest ih =>
    intro st h
    simp only [applyCommentOps, List.foldl_cons]
    exact ih _ (applyCommentOp_ratingInv h op)

/-- Claim C1 witness: the demo database satisfies the invariant, and still
does after adding ratings 4 and 2 and deleting the first comment. -/
theorem rating_never_drifts_witness :
    RatingInv demoDB ∧ RatingInv (applyCommentOps demoDB demoCommentOps) :=
  ⟨by unfold RatingInv; decide,
   rating_never_drifts demoCommentOps demoDB (by unfold RatingInv; decide)⟩

/-- The update merge never touches the id. -/
theorem applyUpdate_id (req : RecipeReq) (rec : Recipe) :
    (applyUpdate req rec).id = rec.id := rfl

/-- Appending a comment never touches the id. -/
theorem addCommentToRecipe_id (t : String) (r : Int) (rec : Recipe) :
    (addCommentToRecipe t r rec).id = rec.id := rfl

/-- Splicing out a comment never touches the id. -/
theorem deleteCommentFromRecipe_id (i : Nat) (rec : Recipe) :
    (deleteCommentFromRecipe i rec).id = rec.id := by
  simp only [deleteCommentFromRecipe]
  split <;> rfl

/-- Every value in an allocation trace exceeds the starting counter. -/
theorem mem_allocTrace_lt : ∀ (n : Nat) (st : DBState) (v : Int),
    v ∈ allocTrace n st → st.counterSeq < v := by
  intro n
  induction n with
  | zero => intro st v hv; simp [allocTrace] at hv
  | succ m ih =>
    intro st v hv
    simp only [allocTrace, getNextRecipeId] at hv
    rcases List.mem_cons.mp hv with h1 | h2
    · omega
    · have hlt := ih { st with counterSeq := st.counterSeq + 1 } v h2
      simp only at hlt
      omega

/-- An allocation trace is strictly increasing. -/
theorem allocTrace_pairwise_lt (n : Nat) : ∀ st : DBState,
    (allocTrace n st).Pairwise (fun a b => a < b) := by
  induction n with
  | zero => intro st; simp [allocTrace]
  | succ m ih =>
    intro st
    simp only [allocTrace, getNextRecipeId]
    refine List.Pairwise.cons ?_ (ih _)
    intro v hv
    have hlt := mem_allocTrace_lt m { st with counterSeq := st.counterSeq + 1 } v hv
    simp only at hlt
    omega

/-- Replacing the record under one id by a record with that same id leaves
the stored id list unchanged. -/
theorem idsOf_map_replace (st : DBState) (rid : Int) (u2 : Recipe)
    (hu : u2.id = rid) :
    idsOf { st with recipes := (st.recipes.map (fun r =>
      if r.id == rid then u2 else r)) } = idsOf st := by
  unfold idsOf
  show (st.recipes.map (fun r => if r.id == rid then u2 else r)).map
      (fun r => r.id) = st.recipes.map (fun r => r.id)
  rw [List.map_map]
  apply List.map_congr_left
  intro a _
  by_cases hid : (a.id == rid) = true
  · have ha : a.id = rid := by simpa using hid
    simp [Function.comp_def, hid, hu, ha]
  · have ha : ¬ a.id = rid := by simpa using hid
    simp [Function.comp_def, ha]

/-- Same-id replacement preserves the identifier invariant. -/
theorem idInv_replace {st : DBState} (h : IdInv st) (rid : Int) (u2 : Recipe)
    (hu : u2.id = rid) :
    IdInv { st with recipes := (st.recipes.map (fun r =>
      if r.id == rid then u2 else r)) } := by
  obtain ⟨hb, hn⟩ := h
  constructor
  · intro i hi
    rw [idsOf_map_replace st rid u2 hu] at hi
    exact hb i hi
  · rw [idsOf_map_replace st rid u2 hu]
    exact hn

/-- Appending a record carrying the freshly incremented counter value
preserves the identifier invariant. -/
theorem idInv_append_fresh {st : DBState} (h : IdInv st) (r : Recipe)
    (hr : r.id = st.counterSeq + 1) :
    IdInv { recipes := st.recipes ++ [r],
            counterSeq := st.counterSeq + 1 } := by
  obtain ⟨hb, hn⟩ := h
  unfold idsOf at hb hn
  constructor
  · intro i hi
    unfold idsOf at hi
    simp only [List.map_append, List.map_cons, List.map_nil, List.mem_append,
      List.mem_singleton] at hi
    show i ≤ st.counterSeq + 1
    rcases hi with hi | hi
    · have := hb i hi
      omega
    · omega
  · unfold idsOf
    simp only [List.map_append, List.map_cons, List.map_nil]
    rw [List.nodup_append]
    refine ⟨hn, List.nodup_singleton _, ?_⟩
    intro a ha hmem
    simp only [List.mem_singleton] at hmem
    subst hmem
    have := hb _ ha
    omega

/-- Removing records preserves the identifier invariant. -/
theorem idInv_eraseP {st : DBState} (h : IdInv st) (p : Recipe → Bool) :
    IdInv { st with recipes := (st.recipes.eraseP p) } := by
  obtain ⟨hb, hn⟩ := h
  unfold idsOf at hb hn
  have hsub : ((st.recipes.eraseP p).map (fun r => r.id)).Sublist
      (st.recipes.map (fun r => r.id)) := (List.eraseP_sublist _).map _
  constructor
  · intro i hi
    unfold idsOf at hi
    exact hb i (hsub.subset hi)
  · unfold idsOf
    exact List.Nodup.sublist hsub hn

/-- The create handler either leaves the state alone or increments the
counter and appends one record carrying the fresh counter value. -/
theorem createRecipe_state (req : RecipeReq) (owner : String)
    (st : DBState) :
    (createRecipe req owner st).2 = st ∨
    ∃ r : Recipe, r.id = st.counterSeq + 1 ∧
      (createRecipe req owner st).2 =
        { recipes := st.recipes ++ [r],
          counterSeq := st.counterSeq + 1 } := by
  by_cases hg : strTruthy req.name = true ∧ strTruthy req.cuisine = true ∧
      intTruthy req.cookingTime = true ∧ req.ingredients.isSome = true
  · cases hi : req.ingredients with
    | none =>
      exfalso
      rw [hi] at hg
      simp at hg
    | some po =>
      cases po with
      | parseError => left; simp [createRecipe, hg, hi]
      | arr l =>
        right
        simp only [createRecipe, hg, hi, getNextRecipeId]
        refine ⟨_, ?_, rfl⟩
        rfl
      | nonArray =>
        right
        simp only [createRecipe, hg, hi, getNextRecipeId]
        refine ⟨_, ?_, rfl⟩
        rfl
  · left; simp [createRecipe, hg]

/-- The update handler either leaves the state alone or replaces the found
record by its merged version under the same id. -/
theorem updateRecipe_state (req : RecipeReq) (rid : Int) (u : String)
    (mOk : Bool) (st : DBState) :
    (updateRecipe req rid u mOk st).2 = st ∨
    ∃ recipe, findRecipe st rid = some recipe ∧
      (updateRecipe req rid u mOk st).2 =
        { st with recipes := (st.recipes.map (fun r =>
          if r.id == rid then applyUpdate req recipe else r)) } := by
  cases hf : findRecipe st rid with
  | none => left; simp [updateRecipe, hf]
  | some recipe =>
    by_cases ho : u ≠ recipe.createdBy
    · left; simp [updateRecipe, hf, ho]
    · cases hi : req.ingredients with
      | none =>
        by_cases hfile : req.file.isSome ∧ recipe.imageUrl ≠ "" ∧ mOk = false
        · left; simp [updateRecipe, hf, ho, hi, hfile]
        · right; exact ⟨recipe, rfl, by simp [updateRecipe, hf, ho, hi, hfile]⟩
      | some po =>
        cases po with
        | parseError => left; simp [updateRecipe, hf, ho, hi]
        | nonArray => left; simp [updateRecipe, hf, ho, hi]
        | arr l =>
          by_cases hfile : req.file.isSome ∧ recipe.imageUrl ≠ "" ∧ mOk = false
          · left; simp [updateRecipe, hf, ho, hi, hfile]
          · right; exact ⟨recipe, rfl, by simp [updateRecipe, hf, ho, hi, hfile]⟩

/-- The delete handler either leaves the state alone or erases the record
with the requested id. -/
theorem deleteRecipe_state (rid : Int) (u : String) (mOk : Bool)
    (st : DBState) :
    (deleteRecipe rid u mOk st).2 = st ∨
    (deleteRecipe rid u mOk st).2 =
      { st with recipes := (st.recipes.eraseP (fun r => r.id == rid)) } := by
  cases hf : findRecipe st rid with
  | none => left; simp [deleteRecipe, hf]
  | some recipe =>
    by_cases hg : u ≠ "maryam865" ∧ u ≠ recipe.createdBy
    · left; simp [deleteRecipe, hf, hg]
    · by_cases hm : recipe.imageUrl ≠ "" ∧ mOk = false
      · left; simp [deleteRecipe, hf, hg, hm]
      · right; simp [deleteRecipe, hf, hg, hm]

/-- The comment-add handler either leaves the state alone or replaces the
found record by a same-id updated record. -/
theorem addCommentHandler_state (rid : Int) (t : Option String)
    (r : Option Int) (st : DBState) :
    (addCommentHandler rid t r st).2 = st ∨
    ∃ recipe tv rv, findRecipe st rid = some recipe ∧
      (addCommentHandler rid t r st).2 =
        { st with recipes := (st.recipes.map (fun r2 =>
          if r2.id == rid then addCommentToRecipe tv rv recipe else r2)) } := by
  cases t with
  | none => left; rfl
  | some tv =>
    cases r with
    | none => left; rfl
    | some rv =>
      by_cases hg : tv = "" ∨ rv = 0 ∨ rv < 1 ∨ rv > 5
      · left; simp [addCommentHandler, hg]
      · cases hf : findRecipe st rid with
        | none => left; simp [addCommentHandler, hg, hf]
        | some recipe =>
          right
          exact ⟨recipe, tv, rv, rfl, by simp [addCommentHandler, hg, hf]⟩

/-- The comment-delete handler either leaves the state alone or replaces the
found record by a same-id updated record. -/
theorem deleteCommentHandler_state (rid : Int) (idx : Option Int)
    (u : String) (st : DBState) :
    (deleteCommentHandler rid idx u st).2 = st ∨
    ∃ recipe i, findRecipe st rid = some recipe ∧
      (deleteCommentHandler rid idx u st).2 =
        { st with recipes := (st.recipes.map (fun r2 =>
          if r2.id == rid then deleteCommentFromRecipe i recipe else r2)) } := by
  by_cases hu : u ≠ "maryam865"
  · left; simp [deleteCommentHandler, hu]
  · cases hf : findRecipe st rid with
    | none => left; simp [deleteCommentHandler, hu, hf]
    | some recipe =>
      cases idx with
      | none => left; simp [deleteCommentHandler, hu, hf]
      | some i =>
        by_cases hc : i < 0 ∨ (recipe.comments.length : Int) ≤ i
        · left; simp [deleteCommentHandler, hu, hf, hc]
        · right
          exact ⟨recipe, i.toNat, rfl, by simp [deleteCommentHandler, hu, hf, hc]⟩

/-- One mutating request preserves the identifier invariant. -/
theorem applyApiOp_idInv {st : DBState} (h : IdInv st) (op : ApiOp) :
    IdInv (applyApiOp st op) := by
  cases op with
  | createOp req owner =>
    rcases createRecipe_state req owner st with heq | ⟨r, hr, heq⟩
    · simp only [applyApiOp]; rw [heq]; exact h
    · simp only [applyApiOp]; rw [heq]; exact idInv_append_fresh h r hr
  | updateOp req rid u mOk =>
    rcases updateRecipe_state req rid u mOk st with heq | ⟨recipe, hf, heq⟩
    · simp only [applyApiOp]; rw [heq]; exact h
    · simp only [applyApiOp]; rw [heq]
      exact idInv_replace h rid _
        (by rw [applyUpdate_id]; exact findRecipe_id hf)
  | deleteOp rid u mOk =>
    rcases deleteRecipe_state rid u mOk st with heq | heq
    · simp only [applyApiOp]; rw [heq]; exact h
    · simp only [applyApiOp]; rw [heq]; exact idInv_eraseP h _
  | addCommentOp rid t r =>
    rcases addCommentHandler_state rid t r st with heq | ⟨recipe, tv, rv, hf, heq⟩
    · simp only [applyApiOp]; rw [heq]; exact h
    · simp only [applyApiOp]; rw [heq]
      exact idInv_replace h rid _
        (by rw [addCommentToRecipe_id]; exact findRecipe_id hf)
  | delCommentOp rid idx u =>
    rcases deleteCommentHandler_state rid idx u st with heq | ⟨recipe, i, hf, heq⟩
    · simp only [applyApiOp]; rw [heq]; exact h
    · simp only [applyApiOp]; rw [heq]
      exact idInv_replace h rid _
        (by rw [deleteCommentFromRecipe_id]; exact findRecipe_id hf)

/-- Any sequence of mutating requests preserves the identifier invariant. -/
theorem applyApiOps_idInv (ops : List ApiOp) :
    ∀ st : DBState, IdInv st → IdInv (applyApiOps st ops) := by
  induction ops with
  | nil => exact fun _ h => h
  | cons op rest ih =>
    intro st h
    simp only [applyApiOps, List.foldl_cons]
    exact ih _ (applyApiOp_idInv h op)

/-- Claim C2: successive allocator calls return a strictly increasing value
sequence — each return strictly greater than every earlier one — and under
any sequence of API requests the stored recipe ids stay pairwise distinct
and bounded by the counter, so an id is never reused, even after its recipe
is deleted. -/
theorem allocator_monotone_ids_unique (n : Nat) (st : DBState)
    (ops : List ApiOp) (h : IdInv st) :
    (allocTrace n st).Pairwise (fun a b => a < b)
    ∧ IdInv (applyApiOps st ops) :=
  ⟨allocTrace_pairwise_lt n st, applyApiOps_idInv ops st h⟩

/-- Claim C2 witness: three allocations from the demo database are strictly
increasing and a create–delete–create sequence keeps the ids distinct. -/
theorem allocator_monotone_ids_unique_witness :
    IdInv demoDB ∧
    ((allocTrace 3 demoDB).Pairwise (fun a b => a < b)
      ∧ IdInv (applyApiOps demoDB demoApiOps)) :=
  ⟨by unfold IdInv idsOf; decide,
   allocator_monotone_ids_unique 3 demoDB demoApiOps
     (by unfold IdInv idsOf; decide)⟩

end RecipeHub
